import Mathlib

/-!
Verification of the departure-board core of `ojp_departures.py` (with the
identical partition logic also present in `SwissDepartureBoard.py`).

The Python source is shallowly embedded: pure fragments become Lean functions,
the per-row animation state machine (`ScrollTime`) and the readiness barrier
(`Synchroniser`) become an explicit transition system, and the fetch pipeline's
exception handling is modelled with an explicit exception datatype and an
`Except`-valued network round trip.
-/

namespace OjpBoard

/-- One transit arrival as held by `LiveTime` in the source: the journey
reference `ID`, the scheduled arrival and the (optional) estimated arrival.
Arrival instants are modelled as natural numbers (seconds on a common clock);
only their ordering matters to the code under verification. -/
structure Service where
  ID : String
  SchArrival : Nat
  ExptArrival : Option Nat
deriving DecidableEq, Repr

/-- The sort key used in `fetch_and_sort_services`:
`svc.ExptArrival if svc.ExptArrival else svc.SchArrival`. -/
def sortKey (s : Service) : Nat := s.ExptArrival.getD s.SchArrival

/-- The `LiveTimeStud` empty sentinel: a blank slot with `ID = "0"`. -/
def studService : Service := ⟨"0", 0, none⟩

/-- The deduplication loop of `boardFixed.split_pinned_rotating`: walk the list
keeping a `seen_ids` accumulator, keeping each service whose ID was not seen
before (the Python `set` is modelled as a membership-only list). -/
def dedupById (seen : List String) : List Service → List Service
  | [] => []
  | svc :: rest =>
      if svc.ID ∈ seen then dedupById seen rest
      else svc :: dedupById (svc.ID :: seen) rest

/-- `boardFixed.split_pinned_rotating`: empty list gives `(none, [])`;
otherwise the head is pinned and the tail is filtered of the pinned ID and
deduplicated by ID, first occurrence kept. -/
def split_pinned_rotating : List Service → Option Service × List Service
  | [] => (none, [])
  | pinned :: rest =>
      (some pinned,
        dedupById [] (rest.filter fun svc => svc.ID != pinned.ID))

/-- Modelled from the spec's words for the C10 refinement claim: the
subsequence obtained by keeping the first occurrence of each ID
("with duplicate IDs removed"). Compared against the source-side
`dedupById` loop. -/
def keepFirstById : List Service → List Service
  | [] => []
  | s :: rest => s :: keepFirstById (rest.filter fun t => t.ID != s.ID)
  termination_by l => l.length
  decreasing_by
    simp only [List.length_cons]
    exact Nat.lt_succ_of_le (List.length_filter_le _ _)

/-- The externally observable outcome of one `boardFixed.requestCardChange`
call: whether a background fetch was scheduled instead, whether row 1 was
asked to refresh its composition, which services (if any) were handed to
`changeCard` for rows 2 and 3, and the rotation index afterwards. -/
structure RequestOutcome where
  fetchScheduled : Bool
  topRefreshed : Bool
  middleAssigned : Option Service
  bottomAssigned : Option Service
  newIndex : Nat
deriving DecidableEq, Repr

/-- Outcome of a `requestCardChange` call that falls through every branch. -/
def noAction (i : Nat) : RequestOutcome := ⟨false, false, none, none, i⟩

/-- `boardFixed.requestCardChange(card, row)`, branch for branch: the outage
guard, the `LiveTime.TimePassed()` fetch deferral, the row-1 pinned refresh
(`Args.FixToArrive`), the `row != 2` early return, the
`rotating_update_pending` re-entrancy guard, and the three arms on
`len(rotating)` (0, 1, many). `rotIndex` is `self.rotating_index`. -/
def requestCardChange (outage fixToArrive fetchDue pending : Bool)
    (rotating : List Service) (rotIndex : Nat) (row : Nat) : RequestOutcome :=
  if outage then noAction rotIndex
  else if fetchDue then { noAction rotIndex with fetchScheduled := true }
  else if row = 1 ∧ fixToArrive then { noAction rotIndex with topRefreshed := true }
  else if row ≠ 2 then noAction rotIndex
  else if pending then noAction rotIndex
  else
    match rotating with
    | [] => ⟨false, false, some studService, some studService, rotIndex⟩
    | [s] => ⟨false, false, some s, some studService, rotIndex⟩
    | s :: u :: rest =>
        ⟨false, false,
          some ((s :: u :: rest).get
            ⟨rotIndex % (s :: u :: rest).length,
              Nat.mod_lt _ (Nat.succ_pos _)⟩),
          some ((s :: u :: rest).get
            ⟨(rotIndex + 1) % (s :: u :: rest).length,
              Nat.mod_lt _ (Nat.succ_pos _)⟩),
          (rotIndex + 1) % (s :: u :: rest).length⟩

/-- The linear ID search loops of `update_display_with_new_data`:
`for i, svc in enumerate(rotating): if svc.ID == target: break`. -/
def findIdxById (target : String) : List Service → Option Nat
  | [] => none
  | svc :: rest =>
      if svc.ID = target then some 0
      else (findIdxById target rest).map (· + 1)

/-- `current_middle_id` as gathered by `update_display_with_new_data`:
set only when row 2 exists and shows a non-sentinel service (comparing the
Python `None` case: searching for `None` never matches any ID). -/
def currentMiddleId (midId : String) : Option String :=
  if midId ≠ "0" then some midId else none

/-- `current_visible_ids` as gathered by `update_display_with_new_data`:
the IDs of the three rows, in top/middle/bottom order, skipping sentinels. -/
def currentVisibleIds (topId midId botId : String) : List String :=
  (if topId ≠ "0" then [topId] else []) ++
    (if midId ≠ "0" then [midId] else []) ++
    (if botId ≠ "0" then [botId] else [])

/-- The nested fallback loops of `update_display_with_new_data`: scan the
visible IDs in order and return the rotating-list position of the first one
that occurs there. -/
def firstVisibleMatch (rotating : List Service) : List String → Option Nat
  | [] => none
  | v :: vs =>
      match findIdxById v rotating with
      | some i => some i
      | none => firstVisibleMatch rotating vs

/-- The rotation-index reassignment of
`boardFixed.update_display_with_new_data`: with a non-empty new rotating
list, re-anchor to the row-2 service's position when its ID is found,
otherwise to the first visible ID found, otherwise keep the old index
(also kept when the rotating list is empty). -/
def computeNewRotatingIndex (topId midId botId : String)
    (rotating : List Service) (oldIndex : Nat) : Nat :=
  if rotating.length = 0 then oldIndex
  else
    match (currentMiddleId midId).bind fun mid => findIdxById mid rotating with
    | some m => m
    | none =>
        match firstVisibleMatch rotating (currentVisibleIds topId midId botId) with
        | some i => i
        | none => oldIndex

/-- The exceptions distinguished by `fetch_and_sort_services`' handlers:
`asyncio.CancelledError` (re-raised), `requests` `ConnectionError`
(a `RequestException` subclass), any other `RequestException`, and any other
`Exception`; each failure carries its message string. -/
inductive FetchExc
  | cancelledError
  | connectionError (msg : String)
  | requestException (msg : String)
  | otherException (msg : String)
deriving DecidableEq, Repr

/-- An item of `boardFixed.update_queue`: either fresh sorted data or a
classified error with its reason keyword and detail text. -/
inductive QueueItem
  | data (payload : List Service)
  | error (reason details : String)
deriving DecidableEq, Repr

/-- The sort applied in `fetch_and_sort_services`:
`data.sort(key=lambda svc: svc.ExptArrival if svc.ExptArrival else
svc.SchArrival)` (a stable ascending sort). -/
def sortServices (data : List Service) : List Service :=
  data.mergeSort fun a b => sortKey a ≤ sortKey b

/-- The result of one `boardFixed.fetch_and_sort_services()` call:
what was enqueued (if anything), whether an exception escaped the function
(only re-raised cancellation does), and the return value otherwise. -/
structure FetchOutcome where
  enqueued : Option QueueItem
  raised : Bool
  retVal : Option Bool
deriving DecidableEq, Repr

/-- `boardFixed.fetch_and_sort_services`, with the environment made explicit:
`fetchInProgress` is `LiveTime.FetchInProgress`, `networkOk` the result of
`check_network_async()`, `hostDetails` the `"Cannot reach host:port"` string,
and `roundTrip` the outcome of `LiveTime.GetDataAsync()` (either the parsed
trips or the exception it raises). -/
def fetch_and_sort_services (fetchInProgress networkOk : Bool)
    (hostDetails : String)
    (roundTrip : Except FetchExc (List Service)) : FetchOutcome :=
  if fetchInProgress then ⟨none, false, some false⟩
  else if networkOk = false then
    ⟨some (.error "wifi" hostDetails), false, some false⟩
  else
    match roundTrip with
    | .ok data => ⟨some (.data (sortServices data)), false, some true⟩
    | .error .cancelledError => ⟨none, true, none⟩
    | .error (.connectionError msg) =>
        ⟨some (.error "wifi" msg), false, some false⟩
    | .error (.requestException msg) =>
        ⟨some (.error "api" msg), false, some false⟩
    | .error (.otherException msg) =>
        ⟨some (.error "unknown" msg), false, some false⟩

/-- The drain loop of `boardFixed._enqueue_update`: repeatedly
`get_nowait()` until the queue is empty. The queue is modelled as the list
of pending items, oldest first. -/
def drainLoop : List QueueItem → List QueueItem
  | [] => []
  | _ :: rest => drainLoop rest

/-- `boardFixed._enqueue_update`: drain every unconsumed item, then put the
new one. -/
def _enqueue_update (q : List QueueItem) (item : QueueItem) : List QueueItem :=
  drainLoop q ++ [item]

/-- The states of the `ScrollTime` per-row state machine (the numeric
constants `WAIT_OPENING` … `STUD` of the source). -/
inductive RState
  | waitOpening | openingScroll | openingEnd | scrollDecider | scrollingWait
  | scrolling | waitSync | waitStud | studScroll | studEnd | stud
deriving DecidableEq, Repr

/-- The animation-relevant state of one `ScrollTime` row: its machine state,
the ID of its `CurrentService`, the `ticks` delay counter, the horizontal and
vertical offsets, `max_pos` (the destination image width), and this row's
entry in the `Synchroniser` readiness map (`True` = ready, `False` = busy).
The purely pictorial members (fonts, composed images, the partner back-link
used only for redraw) are not part of the animation state. -/
structure Row where
  state : RState
  curId : String
  ticks : Nat
  xpos : Nat
  ypos : Nat
  maxPos : Nat
  ready : Bool
deriving DecidableEq, Repr

/-- The externally observable effect of `ScrollTime.changeCard` /
`ScrollTime.updateCard` on one row: the row afterwards, whether the two-line
`StaticTextImage` slide banner was added, whether the destination/number/time
elements were rebuilt (`generateCard`), and whether only the time-text
element was replaced. -/
structure CardEffect where
  row : Row
  bannerAdded : Bool
  elementsRebuilt : Bool
  timeElementReplaced : Bool
deriving DecidableEq, Repr

/-- `ScrollTime.changeCard(newService)`: when both the new and the current
service are the empty sentinel, just park in `STUD` and mark ready; otherwise
mark busy, add the two-line slide banner, rebuild the card
(`generateCard`), take the new service (and its destination width as
`max_pos`), and re-enter `WAIT_STUD` (empty) or `WAIT_OPENING` (non-empty). -/
def changeCard (r : Row) (svc : Service) (w : Nat) : CardEffect :=
  if svc.ID = "0" ∧ r.curId = "0" then
    ⟨{ r with state := .stud, ready := true }, false, false, false⟩
  else
    ⟨{ r with
        state := if svc.ID = "0" then RState.waitStud else RState.waitOpening,
        curId := svc.ID, ready := false, maxPos := w },
      true, true, false⟩

/-- `ScrollTime.updateCard(newService)`: re-enter `SCROLL_DECIDER`, mark
ready, take the new service and replace only the time-text element — no
banner, no rebuild of the destination/number elements. -/
def updateCard (r : Row) (svc : Service) : CardEffect :=
  ⟨{ r with state := .scrollDecider, ready := true, curId := svc.ID },
    false, false, true⟩

/-- The configuration a row tick depends on: `Args.Speed`, the scroll delay,
`Args.ReducedAnimations`, `Args.FixToArrive`, and the destination-image
width that `generateCard` computes for a service. -/
structure Cfg where
  speed : Nat
  delay : Nat
  reducedAnimations : Bool
  fixToArrive : Bool
  destWidth : Service → Nat

/-- `ScrollTime.is_waiting()`: bump the tick counter; once it exceeds the
delay, reset it and report "no longer waiting". Returns the new counter and
the waiting flag. -/
def isWaitingStep (ticks delay : Nat) : Nat × Bool :=
  if ticks + 1 > delay then (0, false) else (ticks + 1, true)

/-- One frame of `ScrollTime.tick()` for a single row, given the current
`Synchroniser.is_synchronised()` value. Returns the row afterwards and
whether this tick reached the `requestCardChange` call (from `WAIT_SYNC` or
`STUD`). The time-text refresh at the top of `tick()` touches only the
display-time image and none of the modelled fields. -/
def rowTick (cfg : Cfg) (sync : Bool) (r : Row) : Row × Bool :=
  match r.state with
  | .waitOpening =>
      let p := isWaitingStep r.ticks cfg.delay
      if p.2 then ({ r with ticks := p.1 }, false)
      else ({ r with ticks := p.1, state := .openingScroll }, false)
  | .openingScroll =>
      if r.ypos < 16 then ({ r with ypos := r.ypos + cfg.speed }, false)
      else ({ r with state := .openingEnd }, false)
  | .openingEnd =>
      ({ r with xpos := 0, ypos := 0, ready := true, state := .scrollDecider },
        false)
  | .scrollDecider =>
      if sync then
        let p := isWaitingStep r.ticks cfg.delay
        if p.2 then ({ r with ticks := p.1 }, false)
        else if cfg.reducedAnimations then
          ({ r with ticks := p.1, ready := false, state := .waitSync }, false)
        else if r.curId = "0" then
          ({ r with ticks := p.1, ready := true, state := .stud }, false)
        else
          ({ r with ticks := p.1, ready := false, state := .scrollingWait },
            false)
      else (r, false)
  | .scrollingWait =>
      let p := isWaitingStep r.ticks cfg.delay
      if p.2 then ({ r with ticks := p.1 }, false)
      else ({ r with ticks := p.1, state := .scrolling }, false)
  | .scrolling =>
      if r.xpos < r.maxPos then ({ r with xpos := r.xpos + cfg.speed }, false)
      else ({ r with state := .waitSync }, false)
  | .waitSync =>
      if r.xpos ≠ 0 then ({ r with xpos := 0 }, false)
      else
        let p := isWaitingStep r.ticks cfg.delay
        if p.2 then ({ r with ticks := p.1 }, false)
        else ({ r with ticks := p.1 }, true)
  | .waitStud =>
      let p := isWaitingStep r.ticks cfg.delay
      if p.2 then ({ r with ticks := p.1 }, false)
      else ({ r with ticks := p.1, state := .studScroll }, false)
  | .studScroll =>
      if r.ypos < 16 then ({ r with ypos := r.ypos + cfg.speed }, false)
      else ({ r with state := .studEnd }, false)
  | .studEnd =>
      ({ r with xpos := 0, ypos := 0, ready := true, state := .stud }, false)
  | .stud =>
      let p := isWaitingStep r.ticks cfg.delay
      if p.2 then ({ r with ticks := p.1 }, false)
      else ({ r with ticks := p.1 }, true)

/-- The three `ScrollTime` rows owned by `boardFixed` (positions 0, 1, 2).
The `Synchroniser`'s weak readiness map is exactly the three `ready` fields:
rows are registered from construction until deletion, and a rebuild re-keys
the map with the three fresh rows. -/
structure Sys where
  top : Row
  middle : Row
  bottom : Row
deriving DecidableEq, Repr

/-- `Synchroniser.is_synchronised()`: every registered row is ready. -/
def isSync (s : Sys) : Bool := s.top.ready && s.middle.ready && s.bottom.ready

/-- The board-side inputs a `requestCardChange` call depends on, treated as
an oracle because they are produced by the fetch scheduler and the services
list: `LiveTime.TimePassed()`, the `rotating_update_pending` flag, the outage
state, and the current rotating partition with its index. -/
structure Oracle where
  fetchDue : Bool
  pending : Bool
  outage : Bool
  rotating : List Service
  rotIndex : Nat

/-- Apply the row mutations of a `requestCardChange` outcome: row 2 then
row 3 receive `changeCard` for whatever services the outcome assigned
(a `top.refresh()` does not change any modelled field). -/
def applyOutcome (cfg : Cfg) (out : RequestOutcome) (s : Sys) : Sys :=
  let s1 :=
    match out.middleAssigned with
    | some svc => { s with middle := (changeCard s.middle svc (cfg.destWidth svc)).row }
    | none => s
  match out.bottomAssigned with
  | some svc => { s1 with bottom := (changeCard s1.bottom svc (cfg.destWidth svc)).row }
  | none => s1

/-- The three fixed row positions; `boardFixed` calls
`requestCardChange(self, position + 1)`, so position 0 is "row 1" etc. -/
inductive RowPos
  | top | middle | bottom
deriving DecidableEq, Repr

/-- One row's `tick()` as driven by `boardFixed.tick()`, including the
synchronous `requestCardChange` call it may make: the row is advanced one
frame and, if it reached the request, the controller's reassignment is
applied to rows 2 and 3. -/
def sysTickRow (cfg : Cfg) (o : Oracle) (s : Sys) (p : RowPos) : Sys :=
  match p with
  | .top =>
      let t := rowTick cfg (isSync s) s.top
      let s' := { s with top := t.1 }
      if t.2 then
        applyOutcome cfg
          (requestCardChange o.outage cfg.fixToArrive o.fetchDue o.pending
            o.rotating o.rotIndex 1) s'
      else s'
  | .middle =>
      let t := rowTick cfg (isSync s) s.middle
      let s' := { s with middle := t.1 }
      if t.2 then
        applyOutcome cfg
          (requestCardChange o.outage cfg.fixToArrive o.fetchDue o.pending
            o.rotating o.rotIndex 2) s'
      else s'
  | .bottom =>
      let t := rowTick cfg (isSync s) s.bottom
      let s' := { s with bottom := t.1 }
      if t.2 then
        applyOutcome cfg
          (requestCardChange o.outage cfg.fixToArrive o.fetchDue o.pending
            o.rotating o.rotIndex 3) s'
      else s'

/-- A freshly constructed `ScrollTime` row (`__init__`): offsets and counter
zero, state `OPENING_SCROLL` for a real service and `STUD` for the empty
sentinel, and marked ready with the synchroniser. -/
def initRow (id : String) (w : Nat) : Row :=
  ⟨if id = "0" then RState.stud else RState.openingScroll, id, 0, 0, 0, w, true⟩

/-- `boardFixed.set_initial_cards()` seen from the synchroniser: three fresh
rows (pinned-or-stud, first rotating-or-stud, second rotating-or-stud). -/
def mkInit (id0 id1 id2 : String) (w0 w1 w2 : Nat) : Sys :=
  ⟨initRow id0 w0, initRow id1 w1, initRow id2 w2⟩

/-- The atomic events that mutate the three-row system in the source: a
single row's `tick()` (with its synchronous `requestCardChange`), a
controller-driven `changeCard` or `updateCard` on one row
(`update_display_with_new_data`, `force_rotation_cycle`), and a full rebuild
`set_initial_cards()` after teardown. Every interleaving the async code can
produce is a sequence of these events. -/
inductive Step (cfg : Cfg) : Sys → Sys → Prop
  | tickRow (o : Oracle) (p : RowPos) (s : Sys) :
      Step cfg s (sysTickRow cfg o s p)
  | changeTop (svc : Service) (s : Sys) :
      Step cfg s { s with top := (changeCard s.top svc (cfg.destWidth svc)).row }
  | changeMiddle (svc : Service) (s : Sys) :
      Step cfg s { s with middle := (changeCard s.middle svc (cfg.destWidth svc)).row }
  | changeBottom (svc : Service) (s : Sys) :
      Step cfg s { s with bottom := (changeCard s.bottom svc (cfg.destWidth svc)).row }
  | updateTop (svc : Service) (s : Sys) :
      Step cfg s { s with top := (updateCard s.top svc).row }
  | updateMiddle (svc : Service) (s : Sys) :
      Step cfg s { s with middle := (updateCard s.middle svc).row }
  | updateBottom (svc : Service) (s : Sys) :
      Step cfg s { s with bottom := (updateCard s.bottom svc).row }
  | rebuild (id0 id1 id2 : String) (w0 w1 w2 : Nat) (s : Sys) :
      Step cfg s (mkInit id0 id1 id2 w0 w1 w2)

/-- The states reachable from some initial board build. -/
inductive Reachable (cfg : Cfg) : Sys → Prop
  | init (id0 id1 id2 : String) (w0 w1 w2 : Nat) :
      Reachable cfg (mkInit id0 id1 id2 w0 w1 w2)
  | step {s t : Sys} : Reachable cfg s → Step cfg s t → Reachable cfg t

/-- A row holding the shared horizontal-scroll slot: it claimed the slot in
`SCROLL_DECIDER` (marking itself busy) and has not yet handed it back. -/
def inPhase (r : Row) : Prop :=
  r.state = .scrollingWait ∨ r.state = .scrolling ∨ r.state = .waitSync

instance (r : Row) : Decidable (inPhase r) := by
  unfold inPhase; infer_instance

/-- 1 when the row holds the scroll slot, 0 otherwise. -/
def phaseBit (r : Row) : Nat := if inPhase r then 1 else 0

/-- How many rows currently hold the scroll slot. -/
def phaseCount (s : Sys) : Nat :=
  phaseBit s.top + phaseBit s.middle + phaseBit s.bottom

/-- How many rows are in the horizontal `Scrolling` state. -/
def scrollingCount (s : Sys) : Nat :=
  (if s.top.state = RState.scrolling then 1 else 0) +
    (if s.middle.state = RState.scrolling then 1 else 0) +
    (if s.bottom.state = RState.scrolling then 1 else 0)

/-- The barrier invariant: a row holding the scroll slot is marked busy in
the synchroniser, and at most one row holds the slot. -/
def Inv (s : Sys) : Prop :=
  (inPhase s.top → s.top.ready = false) ∧
  (inPhase s.middle → s.middle.ready = false) ∧
  (inPhase s.bottom → s.bottom.ready = false) ∧
  phaseCount s ≤ 1

/-- A concrete configuration (speed 16, delay 0, full animations,
pin-to-earliest on) used to exhibit reachable states. -/
def cfgW : Cfg := ⟨16, 0, false, true, fun _ => 16⟩

/-- A concrete oracle: no fetch due, no pending rotation, no outage. -/
def oracleW : Oracle := ⟨false, false, false, [], 0⟩

/-- One top-row tick under the concrete configuration. -/
def tickTopW (s : Sys) : Sys := sysTickRow cfgW oracleW s .top

/-- The concrete state after five top-row ticks from a fresh board whose top
row shows service "A": its top row has reached the `Scrolling` state. -/
def sysW5 : Sys :=
  tickTopW (tickTopW (tickTopW (tickTopW (tickTopW
    (mkInit "A" "0" "0" 16 16 16)))))

end OjpBoard

namespace OjpBoard

theorem dedupById_subset (seen : List String) :
    ∀ l : List Service, ∀ s ∈ dedupById seen l, s ∈ l := by
  intro l
  induction l generalizing seen with
  | nil => intro s hs; simp [dedupById] at hs
  | cons a t ih =>
      intro s hs
      simp only [dedupById] at hs
      split at hs
      · exact List.mem_cons_of_mem _ (ih seen s hs)
      · rcases List.mem_cons.mp hs with h | h
        · exact h ▸ List.mem_cons_self _ _
        · exact List.mem_cons_of_mem _ (ih _ s h)

theorem dedupById_nodup (seen : List String) (l : List Service) :
    ((dedupById seen l).map Service.ID).Nodup ∧
      ∀ x ∈ (dedupById seen l).map Service.ID, x ∉ seen := by
  induction l generalizing seen with
  | nil => simp [dedupById]
  | cons a t ih =>
      simp only [dedupById]
      split
      · exact ⟨(ih seen).1, (ih seen).2⟩
      · rename_i hnot
        have h2 := ih (a.ID :: seen)
        constructor
        · simp only [List.map_cons, List.nodup_cons]
          refine ⟨fun hmem => ?_, h2.1⟩
          exact (h2.2 a.ID hmem) (List.mem_cons_self _ _)
        · intro x hx
          simp only [List.map_cons, List.mem_cons] at hx
          rcases hx with rfl | hx
          · exact hnot
          · intro hxs
            exact (h2.2 x hx) (List.mem_cons_of_mem _ hxs)

theorem dedupById_sublist (seen : List String) (l : List Service) :
    (dedupById seen l).Sublist l := by
  induction l generalizing seen with
  | nil => simp [dedupById]
  | cons a t ih =>
      simp only [dedupById]
      split
      · exact (ih seen).cons a
      · exact (ih (a.ID :: seen)).cons₂ a

/-- C1. For every non-empty service list sorted ascending by
estimated-or-scheduled arrival, `split_pinned_rotating` returns pinned = the
earliest-arriving record (the list head) and a rotating list in which no
record's ID equals the pinned ID and no two records share an ID; for the
empty list it returns `(none, [])`. -/
theorem C1_split_pinned_rotating (l : List Service)
    (hsort : l.Sorted fun a b => sortKey a ≤ sortKey b) :
    (l = [] → split_pinned_rotating l = (none, [])) ∧
    ∀ hne : l ≠ [],
      (split_pinned_rotating l).1 = some (l.head hne) ∧
      (∀ s ∈ l, sortKey (l.head hne) ≤ sortKey s) ∧
      (∀ s ∈ (split_pinned_rotating l).2, s.ID ≠ (l.head hne).ID) ∧
      ((split_pinned_rotating l).2.map Service.ID).Nodup := by
  constructor
  · intro h; subst h; rfl
  · intro hne
    match l, hne with
    | pinned :: rest, _ =>
      refine ⟨rfl, ?_, ?_, ?_⟩
      · intro s hs
        rcases List.mem_cons.mp hs with rfl | hs
        · exact le_refl _
        · exact (List.sorted_cons.mp hsort).1 s hs
      · intro s hs
        have hmem := dedupById_subset [] _ s hs
        have := List.of_mem_filter hmem
        simpa [bne_iff_ne] using this
      · exact (dedupById_nodup [] _).1

/-- C1 witness: the theorem applied to a concrete sorted three-service list. -/
theorem C1_split_pinned_rotating_witness :
    (split_pinned_rotating
        [⟨"A", 2, none⟩, ⟨"B", 5, some 9⟩, ⟨"C", 20, none⟩]).1 =
      some ⟨"A", 2, none⟩ := by
  have h := C1_split_pinned_rotating
    [⟨"A", 2, none⟩, ⟨"B", 5, some 9⟩, ⟨"C", 20, none⟩] (by decide)
  exact (h.2 (by decide)).1

theorem keepFirstById_cons (s : Service) (l : List Service) :
    keepFirstById (s :: l) = s :: keepFirstById (l.filter fun t => t.ID != s.ID) := by
  simp [keepFirstById]

theorem dedupById_eq_keepFirstById :
    ∀ (l : List Service) (seen : List String),
      dedupById seen l = keepFirstById (l.filter fun t => decide (t.ID ∉ seen)) := by
  intro l
  induction l with
  | nil => intro seen; simp [dedupById, keepFirstById]
  | cons a t ih =>
      intro seen
      by_cases hmem : a.ID ∈ seen
      · have h1 : dedupById seen (a :: t) = dedupById seen t := by
          simp [dedupById, hmem]
        have h2 : (a :: t).filter (fun x => decide (x.ID ∉ seen))
            = t.filter (fun x => decide (x.ID ∉ seen)) := by
          simp [List.filter_cons, hmem]
        rw [h1, h2]; exact ih seen
      · have h1 : dedupById seen (a :: t) = a :: dedupById (a.ID :: seen) t := by
          simp [dedupById, hmem]
        have h2 : (a :: t).filter (fun x => decide (x.ID ∉ seen))
            = a :: t.filter (fun x => decide (x.ID ∉ seen)) := by
          simp [List.filter_cons, hmem]
        rw [h1, h2, keepFirstById_cons]
        refine congrArg (a :: ·) ?_
        rw [ih (a.ID :: seen), List.filter_filter]
        refine congrArg keepFirstById (List.filter_congr ?_)
        intro x hx
        by_cases hxa : x.ID = a.ID <;> by_cases hxs : x.ID ∈ seen <;>
          simp [hxa, hxs, List.mem_cons]

/-- C10. `split_pinned_rotating` preserves relative order: the rotating list
is the subsequence of the input tail obtained by keeping the first occurrence
of each ID and dropping pinned-ID matches; consequently, for a service list
sorted ascending by estimated-or-scheduled arrival, the rotating list is also
sorted ascending. -/
theorem C10_rotating_preserves_order (l : List Service)
    (hsort : l.Sorted fun a b => sortKey a ≤ sortKey b)
    (p : Service) (r : List Service)
    (hsplit : split_pinned_rotating l = (some p, r)) :
    r.Sublist l.tail ∧
    r = keepFirstById (l.tail.filter fun s => s.ID != p.ID) ∧
    r.Sorted fun a b => sortKey a ≤ sortKey b := by
  match l, hsplit with
  | a :: t, hsplit =>
    simp only [split_pinned_rotating, Prod.mk.injEq, Option.some.injEq] at hsplit
    obtain ⟨rfl, rfl⟩ := hsplit
    have hsub : (dedupById [] (t.filter fun svc => svc.ID != a.ID)).Sublist t :=
      (dedupById_sublist [] _).trans (List.filter_sublist t)
    refine ⟨hsub, ?_, ?_⟩
    · rw [dedupById_eq_keepFirstById]
      refine congrArg keepFirstById ?_
      have hall : ∀ x ∈ (t.filter fun svc => svc.ID != a.ID),
          (decide (x.ID ∉ ([] : List String))) = true := by simp
      rw [List.filter_congr hall, List.filter_true, List.tail_cons]
    · exact List.Pairwise.sublist hsub (List.sorted_cons.mp hsort).2

/-- C10 witness: the theorem applied to a concrete sorted list with a
duplicate ID and a pinned-ID repeat in the tail. -/
theorem C10_rotating_preserves_order_witness :
    ([⟨"B", 3, none⟩, ⟨"C", 6, none⟩] : List Service).Sublist
      [⟨"B", 3, none⟩, ⟨"A", 4, none⟩, ⟨"B", 5, none⟩, ⟨"C", 6, none⟩] :=
  (C10_rotating_preserves_order
    [⟨"A", 1, none⟩, ⟨"B", 3, none⟩, ⟨"A", 4, none⟩, ⟨"B", 5, none⟩,
      ⟨"C", 6, none⟩]
    (by decide) ⟨"A", 1, none⟩ [⟨"B", 3, none⟩, ⟨"C", 6, none⟩] rfl).1

/-- C2 counterexample: with a rotating list of length `L = 1` (index `i = 0`)
the claimed pair formula demands `rotating[(0+1) mod 1] = rotating[0]` for
row 3, but `requestCardChange` assigns the empty sentinel there instead. -/
theorem C2_counterexample :
    (requestCardChange false false false false [⟨"A", 5, none⟩] 0 2).bottomAssigned
        ≠ some (⟨"A", 5, none⟩ : Service) ∧
      (requestCardChange false false false false
          [⟨"A", 5, none⟩] 0 2).bottomAssigned = some studService := by
  decide

/-- C2 (amended). When a row-2 cycle completion triggers a rotation step (no
outage, no fetch due, no rotation pending), then for every rotating-list
length `L ≥ 2` and index `i` the services assigned to rows 2 and 3 are
`rotating[i mod L]` and `rotating[(i+1) mod L]` and the index becomes
`(i+1) mod L`; for `L = 1` row 2 gets `rotating[0]`, row 3 gets the empty
sentinel, and the index is left unchanged. -/
theorem C2_rotation_step (rotating : List Service) (i : Nat) :
    (∀ h2 : 2 ≤ rotating.length,
      requestCardChange false false false false rotating i 2 =
        ⟨false, false,
          some (rotating.get ⟨i % rotating.length, Nat.mod_lt _ (by omega)⟩),
          some (rotating.get
            ⟨(i + 1) % rotating.length, Nat.mod_lt _ (by omega)⟩),
          (i + 1) % rotating.length⟩) ∧
    ∀ s, rotating = [s] →
      requestCardChange false false false false rotating i 2 =
        ⟨false, false, some s, some studService, i⟩ := by
  constructor
  · intro h2
    match rotating, h2 with
    | s :: u :: rest, _ => rfl
  · rintro s rfl
    rfl

/-- C2 witness: a concrete two-service rotation step (`L = 2`, `i = 5`). -/
theorem C2_rotation_step_witness :
    requestCardChange false false false false
        [⟨"A", 5, none⟩, ⟨"B", 7, none⟩] 5 2 =
      ⟨false, false, some ⟨"B", 7, none⟩, some ⟨"A", 5, none⟩, 0⟩ := by
  have h := (C2_rotation_step [⟨"A", 5, none⟩, ⟨"B", 7, none⟩] 5).1 (by decide)
  exact h.trans (by decide)

/-- C9 counterexample: with pin-to-earliest disabled and two rotating
services available, a row-1 completion request is a complete no-op, whereas
a rotating row's completion (row 2) does trigger the rotating reassignment
— so row 1 does not "behave like a rotating row" whose completion triggers
the same reassignment. -/
theorem C9_counterexample :
    requestCardChange false false false false
        [⟨"A", 5, none⟩, ⟨"B", 7, none⟩] 0 1 = noAction 0 ∧
      (requestCardChange false false false false
          [⟨"A", 5, none⟩, ⟨"B", 7, none⟩] 0 2).middleAssigned
        = some (⟨"A", 5, none⟩ : Service) := by
  decide

/-- C9 (amended). With pin-to-earliest enabled and no fetch due, a row-1
completion only refreshes the pinned row's composition: the pinned service's
identity is never changed and no rotating assignment or index change occurs.
With pin-to-earliest disabled, a row-1 completion is ignored exactly like a
row-3 completion (only row 2 triggers the rotating reassignment). -/
theorem C9_pinned_row_request (fetchDue pending : Bool)
    (rotating : List Service) (i : Nat) :
    (fetchDue = false →
      requestCardChange false true fetchDue pending rotating i 1 =
        { noAction i with topRefreshed := true }) ∧
    requestCardChange false false fetchDue pending rotating i 1 =
      requestCardChange false false fetchDue pending rotating i 3 := by
  constructor
  · rintro rfl; rfl
  · cases fetchDue <;> rfl

/-- C9 witness: a concrete pinned-row refresh. -/
theorem C9_pinned_row_request_witness :
    requestCardChange false true false false [⟨"A", 5, none⟩] 4 1 =
      { noAction 4 with topRefreshed := true } :=
  (C9_pinned_row_request false false [⟨"A", 5, none⟩] 4).1 rfl

theorem firstVisibleMatch_some (rotating : List Service) :
    ∀ (vs : List String) (i : Nat), firstVisibleMatch rotating vs = some i →
      ∃ v ∈ vs, findIdxById v rotating = some i := by
  intro vs
  induction vs with
  | nil => intro i h; simp [firstVisibleMatch] at h
  | cons v rest ih =>
      intro i h
      simp only [firstVisibleMatch] at h
      cases hv : findIdxById v rotating with
      | some j =>
          rw [hv] at h
          exact ⟨v, List.mem_cons_self _ _, hv.trans h⟩
      | none =>
          rw [hv] at h
          obtain ⟨w, hw, hfw⟩ := ih i h
          exact ⟨w, List.mem_cons_of_mem _ hw, hfw⟩

theorem firstVisibleMatch_none (rotating : List Service) :
    ∀ vs : List String, (∀ v ∈ vs, findIdxById v rotating = none) →
      firstVisibleMatch rotating vs = none := by
  intro vs
  induction vs with
  | nil => intro _; rfl
  | cons v rest ih =>
      intro hall
      simp only [firstVisibleMatch, hall v (List.mem_cons_self _ _)]
      exact ih fun w hw => hall w (List.mem_cons_of_mem _ hw)

theorem firstVisibleMatch_isSome (rotating : List Service) :
    ∀ vs : List String, (∃ v ∈ vs, findIdxById v rotating ≠ none) →
      (firstVisibleMatch rotating vs).isSome := by
  intro vs
  induction vs with
  | nil => rintro ⟨v, hv, _⟩; simp at hv
  | cons v rest ih =>
      rintro ⟨w, hw, hfw⟩
      simp only [firstVisibleMatch]
      rcases List.mem_cons.mp hw with rfl | hw
      · cases hfv : findIdxById w rotating with
        | some j => rfl
        | none => exact absurd hfv hfw
      · cases hfv : findIdxById v rotating with
        | some j => rfl
        | none => exact ih ⟨w, hw, hfw⟩

theorem findIdxById_ne_nil {target : String} {rotating : List Service}
    {m : Nat} (h : findIdxById target rotating = some m) :
    rotating.length ≠ 0 := by
  cases rotating with
  | nil => simp [findIdxById] at h
  | cons a t => simp

/-- C3. The rotation-index reassignment of `update_display_with_new_data`:
if the service shown in the first rotating row (row 2) occurs at position
`m` of the new rotating list, the index becomes exactly `m`; failing that,
if some currently visible row's ID occurs, the index is re-anchored to that
ID's position; if no visible ID occurs, the old index is kept. -/
theorem C3_reanchor_index (topId midId botId : String)
    (rotating : List Service) (oldIndex : Nat) :
    (∀ m, midId ≠ "0" → findIdxById midId rotating = some m →
      computeNewRotatingIndex topId midId botId rotating oldIndex = m) ∧
    ((midId = "0" ∨ findIdxById midId rotating = none) →
      (∃ v ∈ currentVisibleIds topId midId botId,
          findIdxById v rotating ≠ none) →
      ∃ v ∈ currentVisibleIds topId midId botId,
        findIdxById v rotating =
          some (computeNewRotatingIndex topId midId botId rotating oldIndex)) ∧
    ((∀ v ∈ currentVisibleIds topId midId botId,
        findIdxById v rotating = none) →
      computeNewRotatingIndex topId midId botId rotating oldIndex = oldIndex) := by
  refine ⟨?_, ?_, ?_⟩
  · intro m hmid hfind
    simp only [computeNewRotatingIndex, currentMiddleId, if_pos hmid,
      Option.some_bind, hfind, if_neg (findIdxById_ne_nil hfind)]
  · intro hmidnone hex
    have hbind :
        ((currentMiddleId midId).bind fun mid => findIdxById mid rotating)
          = none := by
      rcases hmidnone with h0 | hnone
      · simp [currentMiddleId, h0]
      · by_cases hmid : midId ≠ "0"
        · simp [currentMiddleId, hmid, hnone]
        · simp only [ne_eq, not_not] at hmid
          simp [currentMiddleId, hmid]
    obtain ⟨v, hv, hfv⟩ := hex
    have hlen : rotating.length ≠ 0 := by
      cases hfvv : findIdxById v rotating with
      | none => exact absurd hfvv hfv
      | some j => exact findIdxById_ne_nil hfvv
    have hsome := firstVisibleMatch_isSome rotating
      (currentVisibleIds topId midId botId) ⟨v, hv, hfv⟩
    cases hm : firstVisibleMatch rotating (currentVisibleIds topId midId botId) with
    | none => rw [hm] at hsome; simp at hsome
    | some j =>
        obtain ⟨w, hw, hfw⟩ := firstVisibleMatch_some rotating _ j hm
        refine ⟨w, hw, ?_⟩
        rw [hfw]
        simp only [computeNewRotatingIndex, if_neg hlen, hbind, hm]
  · intro hall
    by_cases hlen : rotating.length = 0
    · simp [computeNewRotatingIndex, hlen]
    · have hbind :
          ((currentMiddleId midId).bind fun mid => findIdxById mid rotating)
            = none := by
        by_cases hmid : midId ≠ "0"
        · have hmem : midId ∈ currentVisibleIds topId midId botId := by
            simp [currentVisibleIds, hmid]
          simp [currentMiddleId, hmid, hall midId hmem]
        · simp only [ne_eq, not_not] at hmid
          simp [currentMiddleId, hmid]
      have hnone := firstVisibleMatch_none rotating
        (currentVisibleIds topId midId botId) hall
      simp only [computeNewRotatingIndex, if_neg hlen, hbind, hnone]

/-- C3 witness: the row-2 service's ID is found at position 1 of the new
rotating list and the index re-anchors there. -/
theorem C3_reanchor_index_witness :
    computeNewRotatingIndex "T" "M" "B"
        [⟨"X", 1, none⟩, ⟨"M", 2, none⟩] 7 = 1 :=
  (C3_reanchor_index "T" "M" "B" [⟨"X", 1, none⟩, ⟨"M", 2, none⟩] 7).1 1
    (by decide) (by decide)

/-- C5 counterexample: when the network round trip raises the cancellation
exception (`asyncio.CancelledError`, re-raised by the first handler),
`fetch_and_sort_services` publishes nothing and the exception escapes the
function — so not every exception raised on the fetch path is converted to
a classified outcome. -/
theorem C5_counterexample :
    (fetch_and_sort_services false true "h"
        (Except.error FetchExc.cancelledError)).raised = true ∧
      (fetch_and_sort_services false true "h"
        (Except.error FetchExc.cancelledError)).enqueued = none := by
  decide

/-- C5 (amended). Every fetch-path failure except task cancellation is
published as a classified outcome and never as the raw exception: an
unreachable network or a `ConnectionError` yields the network-unreachable
kind (`"wifi"`), any other `RequestException` yields the upstream-error kind
(`"api"`), any other exception yields the unknown-error kind (`"unknown"`),
and success publishes the sorted data; task cancellation alone is re-raised
(publishing nothing) and is absorbed by the fetch task's done-callback, so
nothing reaches the tick loop uncaught. -/
theorem C5_fetch_classification (hostDetails msg : String)
    (rt : Except FetchExc (List Service)) :
    (fetch_and_sort_services false false hostDetails rt =
      ⟨some (.error "wifi" hostDetails), false, some false⟩) ∧
    (rt = .error (.connectionError msg) →
      fetch_and_sort_services false true hostDetails rt =
        ⟨some (.error "wifi" msg), false, some false⟩) ∧
    (rt = .error (.requestException msg) →
      fetch_and_sort_services false true hostDetails rt =
        ⟨some (.error "api" msg), false, some false⟩) ∧
    (rt = .error (.otherException msg) →
      fetch_and_sort_services false true hostDetails rt =
        ⟨some (.error "unknown" msg), false, some false⟩) ∧
    (∀ d, rt = .ok d →
      fetch_and_sort_services false true hostDetails rt =
        ⟨some (.data (sortServices d)), false, some true⟩) ∧
    (rt = .error .cancelledError →
      fetch_and_sort_services false true hostDetails rt = ⟨none, true, none⟩) := by
  refine ⟨rfl, ?_, ?_, ?_, ?_, ?_⟩
  · rintro rfl; rfl
  · rintro rfl; rfl
  · rintro rfl; rfl
  · rintro d rfl; rfl
  · rintro rfl; rfl

/-- C5 witness: a concrete `ConnectionError` is published as `"wifi"`. -/
theorem C5_fetch_classification_witness :
    fetch_and_sort_services false true "h"
        (Except.error (FetchExc.connectionError "boom")) =
      ⟨some (.error "wifi" "boom"), false, some false⟩ :=
  (C5_fetch_classification "h" "boom"
    (Except.error (FetchExc.connectionError "boom"))).2.1 rfl

theorem drainLoop_eq_nil : ∀ q : List QueueItem, drainLoop q = [] := by
  intro q
  induction q with
  | nil => rfl
  | cons a t ih => simpa [drainLoop] using ih

/-- C6. After every `_enqueue_update` call — whatever unconsumed items the
queue held from any earlier sequence of enqueues — the queue holds exactly
one item, the newest: the drain loop removes every older entry before the
new item is put. -/
theorem C6_enqueue_single_slot (q : List QueueItem) (item : QueueItem) :
    _enqueue_update q item = [item] ∧ (_enqueue_update q item).length = 1 := by
  constructor <;> simp [_enqueue_update, drainLoop_eq_nil q]

theorem changeCard_not_inPhase (r : Row) (svc : Service) (w : Nat) :
    ¬ inPhase (changeCard r svc w).row := by
  unfold changeCard inPhase
  split_ifs <;> simp_all

theorem updateCard_not_inPhase (r : Row) (svc : Service) :
    ¬ inPhase (updateCard r svc).row := by
  simp [updateCard, inPhase]

theorem initRow_not_inPhase (id : String) (w : Nat) :
    ¬ inPhase (initRow id w) := by
  unfold initRow inPhase
  split_ifs <;> simp_all

theorem phaseBit_le_one (r : Row) : phaseBit r ≤ 1 := by
  unfold phaseBit; split_ifs <;> omega

theorem phaseBit_eq_zero (r : Row) (h : ¬ inPhase r) : phaseBit r = 0 :=
  if_neg h

theorem phaseBit_eq_one (r : Row) (h : inPhase r) : phaseBit r = 1 :=
  if_pos h

theorem inPhase_of_phaseBit_pos (r : Row) (h : 0 < phaseBit r) : inPhase r := by
  by_contra hc
  rw [phaseBit_eq_zero r hc] at h
  omega

theorem rowTick_phase (cfg : Cfg) (sync : Bool) (r : Row)
    (h : inPhase (rowTick cfg sync r).1) :
    (inPhase r ∧ (rowTick cfg sync r).1.ready = r.ready) ∨
      (r.state = .scrollDecider ∧ sync = true ∧
        (rowTick cfg sync r).1.ready = false) := by
  rcases r with ⟨st, id, tk, x, y, m, rd⟩
  cases st <;>
    simp only [rowTick, inPhase] at h ⊢ <;>
    first
      | (split_ifs at h ⊢ <;> simp_all)
      | simp_all

theorem applyOutcome_top (cfg : Cfg) (out : RequestOutcome) (s : Sys) :
    (applyOutcome cfg out s).top = s.top := by
  unfold applyOutcome
  cases out.middleAssigned <;> cases out.bottomAssigned <;> rfl

theorem applyOutcome_middle (cfg : Cfg) (out : RequestOutcome) (s : Sys) :
    (applyOutcome cfg out s).middle = s.middle ∨
      ∃ svc w, (applyOutcome cfg out s).middle = (changeCard s.middle svc w).row := by
  unfold applyOutcome
  cases out.middleAssigned with
  | none => cases out.bottomAssigned <;> simp
  | some svc =>
      cases out.bottomAssigned <;> exact Or.inr ⟨svc, cfg.destWidth svc, rfl⟩

theorem applyOutcome_bottom (cfg : Cfg) (out : RequestOutcome) (s : Sys) :
    (applyOutcome cfg out s).bottom = s.bottom ∨
      ∃ svc w, (applyOutcome cfg out s).bottom = (changeCard s.bottom svc w).row := by
  unfold applyOutcome
  cases out.middleAssigned <;> cases out.bottomAssigned <;>
    first
      | exact Or.inl rfl
      | exact Or.inr ⟨_, _, rfl⟩

theorem Inv_applyOutcome (cfg : Cfg) (out : RequestOutcome) (s : Sys)
    (h : Inv s) : Inv (applyOutcome cfg out s) := by
  obtain ⟨h1, h2, h3, h4⟩ := h
  have ht := applyOutcome_top cfg out s
  have hm := applyOutcome_middle cfg out s
  have hb := applyOutcome_bottom cfg out s
  have hm2 : (inPhase (applyOutcome cfg out s).middle →
        (applyOutcome cfg out s).middle.ready = false) ∧
      phaseBit (applyOutcome cfg out s).middle ≤ phaseBit s.middle := by
    rcases hm with hm | ⟨svc, w, hm⟩
    · rw [hm]; exact ⟨h2, le_refl _⟩
    · rw [hm]
      refine ⟨fun hph => absurd hph (changeCard_not_inPhase _ _ _), ?_⟩
      rw [phaseBit_eq_zero _ (changeCard_not_inPhase _ _ _)]
      omega
  have hb2 : (inPhase (applyOutcome cfg out s).bottom →
        (applyOutcome cfg out s).bottom.ready = false) ∧
      phaseBit (applyOutcome cfg out s).bottom ≤ phaseBit s.bottom := by
    rcases hb with hb | ⟨svc, w, hb⟩
    · rw [hb]; exact ⟨h3, le_refl _⟩
    · rw [hb]
      refine ⟨fun hph => absurd hph (changeCard_not_inPhase _ _ _), ?_⟩
      rw [phaseBit_eq_zero _ (changeCard_not_inPhase _ _ _)]
      omega
  refine ⟨?_, hm2.1, hb2.1, ?_⟩
  · rw [ht]; exact h1
  · unfold phaseCount at h4 ⊢
    rw [ht]
    have := hm2.2
    have := hb2.2
    omega

theorem Inv_mkInit (id0 id1 id2 : String) (w0 w1 w2 : Nat) :
    Inv (mkInit id0 id1 id2 w0 w1 w2) := by
  refine ⟨?_, ?_, ?_, ?_⟩
  · intro hph; exact absurd hph (initRow_not_inPhase _ _)
  · intro hph; exact absurd hph (initRow_not_inPhase _ _)
  · intro hph; exact absurd hph (initRow_not_inPhase _ _)
  · unfold phaseCount mkInit
    simp only [phaseBit_eq_zero _ (initRow_not_inPhase _ _)]
    omega

theorem isSync_ready {s : Sys} (h : isSync s = true) :
    s.top.ready = true ∧ s.middle.ready = true ∧ s.bottom.ready = true := by
  unfold isSync at h
  simp only [Bool.and_eq_true] at h
  exact ⟨h.1.1, h.1.2, h.2⟩

theorem Inv_tick_top (cfg : Cfg) (s : Sys) (h : Inv s) :
    Inv { s with top := (rowTick cfg (isSync s) s.top).1 } := by
  obtain ⟨h1, h2, h3, h4⟩ := h
  by_cases hph : inPhase (rowTick cfg (isSync s) s.top).1
  · rcases rowTick_phase cfg (isSync s) s.top hph with
      ⟨hpr, hready⟩ | ⟨hsd, hsync, hready⟩
    · refine ⟨fun _ => ?_, h2, h3, ?_⟩
      · rw [hready]; exact h1 hpr
      · have e1 := phaseBit_eq_one _ hpr
        have e2 := phaseBit_eq_one _ hph
        unfold phaseCount at h4 ⊢
        dsimp only
        omega
    · have hall := isSync_ready hsync
      have hnm : ¬ inPhase s.middle := by
        intro hph2
        have hf := h2 hph2
        rw [hall.2.1] at hf
        exact Bool.noConfusion hf
      have hnb : ¬ inPhase s.bottom := by
        intro hph2
        have hf := h3 hph2
        rw [hall.2.2] at hf
        exact Bool.noConfusion hf
      refine ⟨fun _ => hready, h2, h3, ?_⟩
      have e1 := phaseBit_eq_zero _ hnm
      have e2 := phaseBit_eq_zero _ hnb
      have e3 := phaseBit_eq_one _ hph
      unfold phaseCount
      dsimp only
      omega
  · refine ⟨fun hc => absurd hc hph, h2, h3, ?_⟩
    have e1 := phaseBit_eq_zero _ hph
    unfold phaseCount at h4 ⊢
    dsimp only
    have t1 := phaseBit_le_one s.top
    omega

theorem Inv_tick_middle (cfg : Cfg) (s : Sys) (h : Inv s) :
    Inv { s with middle := (rowTick cfg (isSync s) s.middle).1 } := by
  obtain ⟨h1, h2, h3, h4⟩ := h
  by_cases hph : inPhase (rowTick cfg (isSync s) s.middle).1
  · rcases rowTick_phase cfg (isSync s) s.middle hph with
      ⟨hpr, hready⟩ | ⟨hsd, hsync, hready⟩
    · refine ⟨h1, fun _ => ?_, h3, ?_⟩
      · rw [hready]; exact h2 hpr
      · have e1 := phaseBit_eq_one _ hpr
        have e2 := phaseBit_eq_one _ hph
        unfold phaseCount at h4 ⊢
        dsimp only
        omega
    · have hall := isSync_ready hsync
      have hnt : ¬ inPhase s.top := by
        intro hph2
        have hf := h1 hph2
        rw [hall.1] at hf
        exact Bool.noConfusion hf
      have hnb : ¬ inPhase s.bottom := by
        intro hph2
        have hf := h3 hph2
        rw [hall.2.2] at hf
        exact Bool.noConfusion hf
      refine ⟨h1, fun _ => hready, h3, ?_⟩
      have e1 := phaseBit_eq_zero _ hnt
      have e2 := phaseBit_eq_zero _ hnb
      have e3 := phaseBit_eq_one _ hph
      unfold phaseCount
      dsimp only
      omega
  · refine ⟨h1, fun hc => absurd hc hph, h3, ?_⟩
    have e1 := phaseBit_eq_zero _ hph
    unfold phaseCount at h4 ⊢
    dsimp only
    have t1 := phaseBit_le_one s.middle
    omega

theorem Inv_tick_bottom (cfg : Cfg) (s : Sys) (h : Inv s) :
    Inv { s with bottom := (rowTick cfg (isSync s) s.bottom).1 } := by
  obtain ⟨h1, h2, h3, h4⟩ := h
  by_cases hph : inPhase (rowTick cfg (isSync s) s.bottom).1
  · rcases rowTick_phase cfg (isSync s) s.bottom hph with
      ⟨hpr, hready⟩ | ⟨hsd, hsync, hready⟩
    · refine ⟨h1, h2, fun _ => ?_, ?_⟩
      · rw [hready]; exact h3 hpr
      · have e1 := phaseBit_eq_one _ hpr
        have e2 := phaseBit_eq_one _ hph
        unfold phaseCount at h4 ⊢
        dsimp only
        omega
    · have hall := isSync_ready hsync
      have hnt : ¬ inPhase s.top := by
        intro hph2
        have hf := h1 hph2
        rw [hall.1] at hf
        exact Bool.noConfusion hf
      have hnm : ¬ inPhase s.middle := by
        intro hph2
        have hf := h2 hph2
        rw [hall.2.1] at hf
        exact Bool.noConfusion hf
      refine ⟨h1, h2, fun _ => hready, ?_⟩
      have e1 := phaseBit_eq_zero _ hnt
      have e2 := phaseBit_eq_zero _ hnm
      have e3 := phaseBit_eq_one _ hph
      unfold phaseCount
      dsimp only
      omega
  · refine ⟨h1, h2, fun hc => absurd hc hph, ?_⟩
    have e1 := phaseBit_eq_zero _ hph
    unfold phaseCount at h4 ⊢
    dsimp only
    have t1 := phaseBit_le_one s.bottom
    omega

theorem Inv_step (cfg : Cfg) {s t : Sys} (hs : Inv s) (hst : Step cfg s t) :
    Inv t := by
  cases hst with
  | tickRow o p s =>
      cases p with
      | top =>
          by_cases ht : (rowTick cfg (isSync s) s.top).2
          · simpa [sysTickRow, ht] using
              Inv_applyOutcome cfg
                (requestCardChange o.outage cfg.fixToArrive o.fetchDue
                  o.pending o.rotating o.rotIndex 1) _ (Inv_tick_top cfg s hs)
          · simpa [sysTickRow, ht] using Inv_tick_top cfg s hs
      | middle =>
          by_cases ht : (rowTick cfg (isSync s) s.middle).2
          · simpa [sysTickRow, ht] using
              Inv_applyOutcome cfg
                (requestCardChange o.outage cfg.fixToArrive o.fetchDue
                  o.pending o.rotating o.rotIndex 2) _ (Inv_tick_middle cfg s hs)
          · simpa [sysTickRow, ht] using Inv_tick_middle cfg s hs
      | bottom =>
          by_cases ht : (rowTick cfg (isSync s) s.bottom).2
          · simpa [sysTickRow, ht] using
              Inv_applyOutcome cfg
                (requestCardChange o.outage cfg.fixToArrive o.fetchDue
                  o.pending o.rotating o.rotIndex 3) _ (Inv_tick_bottom cfg s hs)
          · simpa [sysTickRow, ht] using Inv_tick_bottom cfg s hs
  | changeTop svc s =>
      obtain ⟨h1, h2, h3, h4⟩ := hs
      refine ⟨fun hc => absurd hc (changeCard_not_inPhase _ _ _), h2, h3, ?_⟩
      have e1 := phaseBit_eq_zero _
        (changeCard_not_inPhase s.top svc (cfg.destWidth svc))
      unfold phaseCount at h4 ⊢
      dsimp only
      have t1 := phaseBit_le_one s.top
      omega
  | changeMiddle svc s =>
      obtain ⟨h1, h2, h3, h4⟩ := hs
      refine ⟨h1, fun hc => absurd hc (changeCard_not_inPhase _ _ _), h3, ?_⟩
      have e1 := phaseBit_eq_zero _
        (changeCard_not_inPhase s.middle svc (cfg.destWidth svc))
      unfold phaseCount at h4 ⊢
      dsimp only
      have t1 := phaseBit_le_one s.middle
      omega
  | changeBottom svc s =>
      obtain ⟨h1, h2, h3, h4⟩ := hs
      refine ⟨h1, h2, fun hc => absurd hc (changeCard_not_inPhase _ _ _), ?_⟩
      have e1 := phaseBit_eq_zero _
        (changeCard_not_inPhase s.bottom svc (cfg.destWidth svc))
      unfold phaseCount at h4 ⊢
      dsimp only
      have t1 := phaseBit_le_one s.bottom
      omega
  | updateTop svc s =>
      obtain ⟨h1, h2, h3, h4⟩ := hs
      refine ⟨fun hc => absurd hc (updateCard_not_inPhase _ _), h2, h3, ?_⟩
      have e1 := phaseBit_eq_zero _ (updateCard_not_inPhase s.top svc)
      unfold phaseCount at h4 ⊢
      dsimp only
      have t1 := phaseBit_le_one s.top
      omega
  | updateMiddle svc s =>
      obtain ⟨h1, h2, h3, h4⟩ := hs
      refine ⟨h1, fun hc => absurd hc (updateCard_not_inPhase _ _), h3, ?_⟩
      have e1 := phaseBit_eq_zero _ (updateCard_not_inPhase s.middle svc)
      unfold phaseCount at h4 ⊢
      dsimp only
      have t1 := phaseBit_le_one s.middle
      omega
  | updateBottom svc s =>
      obtain ⟨h1, h2, h3, h4⟩ := hs
      refine ⟨h1, h2, fun hc => absurd hc (updateCard_not_inPhase _ _), ?_⟩
      have e1 := phaseBit_eq_zero _ (updateCard_not_inPhase s.bottom svc)
      unfold phaseCount at h4 ⊢
      dsimp only
      have t1 := phaseBit_le_one s.bottom
      omega
  | rebuild id0 id1 id2 w0 w1 w2 s => exact Inv_mkInit id0 id1 id2 w0 w1 w2

theorem Inv_reachable (cfg : Cfg) {s : Sys} (h : Reachable cfg s) : Inv s := by
  induction h with
  | init id0 id1 id2 w0 w1 w2 => exact Inv_mkInit id0 id1 id2 w0 w1 w2
  | step _ hst ih => exact Inv_step cfg ih hst

/-- C4. In every state of the three-row system reachable from a board build
(in particular, in every state after the initial vertical reveal has
completed), at most one row is in the horizontal `Scrolling` state: a row
reaches it only through `SCROLL_DECIDER`, which requires the synchroniser to
report every registered row ready and marks the row busy first, and a row in
the scroll phase is marked ready again only by the transitions that
simultaneously take it out of that phase. -/
theorem C4_at_most_one_scrolling (cfg : Cfg) (s : Sys)
    (h : Reachable cfg s) : scrollingCount s ≤ 1 := by
  have hc := (Inv_reachable cfg h).2.2.2
  have b1 : (if s.top.state = RState.scrolling then 1 else 0) ≤
      phaseBit s.top := by
    split_ifs with hs1
    · rw [phaseBit_eq_one _ (Or.inr (Or.inl hs1))]
    · omega
  have b2 : (if s.middle.state = RState.scrolling then 1 else 0) ≤
      phaseBit s.middle := by
    split_ifs with hs1
    · rw [phaseBit_eq_one _ (Or.inr (Or.inl hs1))]
    · omega
  have b3 : (if s.bottom.state = RState.scrolling then 1 else 0) ≤
      phaseBit s.bottom := by
    split_ifs with hs1
    · rw [phaseBit_eq_one _ (Or.inr (Or.inl hs1))]
    · omega
  unfold scrollingCount
  unfold phaseCount at hc
  omega

/-- C4 witness: a concrete reachable state whose top row is actively in the
`Scrolling` state, to which the theorem applies. -/
theorem C4_at_most_one_scrolling_witness :
    scrollingCount sysW5 ≤ 1 ∧ sysW5.top.state = RState.scrolling := by
  constructor
  · refine C4_at_most_one_scrolling cfgW sysW5 ?_
    exact Reachable.step (Reachable.step (Reachable.step (Reachable.step
      (Reachable.step (Reachable.init "A" "0" "0" 16 16 16)
        (Step.tickRow oracleW RowPos.top _))
      (Step.tickRow oracleW RowPos.top _))
      (Step.tickRow oracleW RowPos.top _))
      (Step.tickRow oracleW RowPos.top _))
      (Step.tickRow oracleW RowPos.top _)
  · decide

/-- C7 counterexample: a `changeCard` whose new service carries the same
(non-sentinel) ID as the one currently displayed still adds the two-line
slide banner — so it is not only `changeCard` with a *different* ID that
re-triggers the banner-slide animation. -/
theorem C7_counterexample :
    (changeCard ⟨RState.scrollDecider, "A", 0, 0, 0, 12, true⟩
        ⟨"A", 5, none⟩ 12).bannerAdded = true := by
  decide

/-- C7 (amended). `updateCard` never re-triggers the banner-slide animation
for any new service (same ID or not): the row re-enters `SCROLL_DECIDER`,
never `WAIT_OPENING` or `WAIT_STUD`, and no two-line banner image is added;
`changeCard` re-triggers the banner-slide exactly when the new and current
services are not both the empty sentinel — including when it is handed the
currently displayed non-sentinel ID again. -/
theorem C7_updateCard_no_banner (r : Row) (svc : Service) (w : Nat) :
    (updateCard r svc).bannerAdded = false ∧
    (updateCard r svc).row.state = RState.scrollDecider ∧
    (updateCard r svc).row.state ≠ RState.waitOpening ∧
    (updateCard r svc).row.state ≠ RState.waitStud ∧
    ((changeCard r svc w).bannerAdded = true ↔
      ¬(svc.ID = "0" ∧ r.curId = "0")) := by
  refine ⟨rfl, rfl, by simp [updateCard], by simp [updateCard], ?_⟩
  unfold changeCard
  split_ifs with h1 h2 <;> simp_all

/-- C8 counterexample: `changeCard` with the empty sentinel on a row already
showing the empty sentinel parks the row in `STUD`, not `WAIT_STUD`, and
adds no slide banner and rebuilds nothing. -/
theorem C8_counterexample :
    (changeCard ⟨RState.stud, "0", 0, 0, 0, 12, true⟩ studService 12).row.state
        = RState.stud ∧
      RState.stud ≠ RState.waitStud ∧
      (changeCard ⟨RState.stud, "0", 0, 0, 0, 12, true⟩
        studService 12).bannerAdded = false := by
  decide

/-- C8 (amended). Unless both the new service and the currently shown one
are the empty sentinel, `changeCard(newService)` replaces the assigned
service, rebuilds the destination/number/time elements, adds the two-line
startup slide banner, and re-enters `WAIT_OPENING` for a non-empty service
and `WAIT_STUD` for the empty sentinel; when both are the sentinel it
instead parks directly in `STUD`, marked ready, with no banner. -/
theorem C8_changeCard_transition (r : Row) (svc : Service) (w : Nat) :
    (¬(svc.ID = "0" ∧ r.curId = "0") →
      (changeCard r svc w).row.curId = svc.ID ∧
      (changeCard r svc w).elementsRebuilt = true ∧
      (changeCard r svc w).bannerAdded = true ∧
      (changeCard r svc w).row.state =
        (if svc.ID = "0" then RState.waitStud else RState.waitOpening)) ∧
    (svc.ID = "0" → r.curId = "0" →
      (changeCard r svc w).row.state = RState.stud ∧
      (changeCard r svc w).bannerAdded = false ∧
      (changeCard r svc w).row.ready = true) := by
  constructor
  · intro h
    unfold changeCard
    rw [if_neg h]
    exact ⟨rfl, rfl, rfl, rfl⟩
  · intro h0 hr
    unfold changeCard
    rw [if_pos ⟨h0, hr⟩]
    exact ⟨rfl, rfl, rfl⟩

/-- C8 witness: a concrete non-sentinel `changeCard` re-enters
`WAIT_OPENING` with the banner added. -/
theorem C8_changeCard_transition_witness :
    (changeCard ⟨RState.stud, "0", 0, 0, 0, 12, true⟩
        ⟨"A", 5, none⟩ 16).bannerAdded = true := by
  have h := (C8_changeCard_transition ⟨RState.stud, "0", 0, 0, 0, 12, true⟩
    ⟨"A", 5, none⟩ 16).1 (by decide)
  exact h.2.2.1

end OjpBoard
